import Mathlib

/- Shallow embedding of the routedb package (routedb.go together with the
   generated flatbuffer accessors in route/).  IEEE float64 values are
   modelled by GoFloat: either an exact rational value or NaN.  Rational
   arithmetic is modelled exactly; every comparison involving NaN is
   false, as in IEEE 754 and hence in Go. -/

inductive GoFloat where
  | nan
  | val (q : ℚ)
deriving DecidableEq

/-- Go `x < y` on float64: false when either operand is NaN. -/
def flt : GoFloat → GoFloat → Bool
  | GoFloat.val a, GoFloat.val b => decide (a < b)
  | _, _ => false

/-- Go `x > y` on float64: false when either operand is NaN. -/
def fgt : GoFloat → GoFloat → Bool
  | GoFloat.val a, GoFloat.val b => decide (b < a)
  | _, _ => false

/-- Go float64 multiplication, modelled exactly on rationals; NaN
propagates.  The product is written with Rat.divInt so that it reduces
inside the kernel; fmul_val below shows it is exactly rational
multiplication. -/
def fmul : GoFloat → GoFloat → GoFloat
  | GoFloat.val a, GoFloat.val b =>
    GoFloat.val (Rat.divInt (a.num * b.num) ((a.den : ℤ) * (b.den : ℤ)))
  | _, _ => GoFloat.nan

/-- Truncation toward zero of a rational number, which is the rounding
mode of Go conversions from float64 to integer types. -/
def ratTrunc (q : ℚ) : ℤ :=
  if q < 0 then Int.ceil q else Int.floor q

/-- Go `int32(x)` for a float64 `x`: truncation toward zero.  For NaN and
for values outside the int32 range the result of the Go conversion is
implementation-defined; those cases are modelled as 0 and no theorem
below relies on them. -/
def goInt32ofFloat : GoFloat → ℤ
  | GoFloat.nan => 0
  | GoFloat.val q =>
    let t := ratTrunc q
    if t < -(2 ^ 31) ∨ 2 ^ 31 ≤ t then 0 else t

/-- Go `int64(x)` for a float64 `x`: truncation toward zero, with the
same caveat as `goInt32ofFloat` for NaN and out-of-range values. -/
def goInt64ofFloat : GoFloat → ℤ
  | GoFloat.nan => 0
  | GoFloat.val q =>
    let t := ratTrunc q
    if t < -(2 ^ 63) ∨ 2 ^ 63 ≤ t then 0 else t

/- Data model, following the gpx library's shape as used by routedb.go:
   a Gpx document has a list of tracks (Trk), each with a list of track
   segments (Trkseg), each with a list of track points (Trkpt), plus a
   metadata name string. -/

structure Trkpt where
  lat : GoFloat
  lon : GoFloat
deriving DecidableEq

structure Trkseg where
  trkpt : List Trkpt
deriving DecidableEq

structure Trk where
  trkseg : List Trkseg
deriving DecidableEq

structure Metadata where
  name : String
deriving DecidableEq

structure Gpx where
  trk : List Trk
  metadata : Metadata
deriving DecidableEq

/-- A Box is a region defined by two latitudes (N, S) and two longitudes
(E, W); field order follows the Go struct. -/
structure Box where
  n : GoFloat
  e : GoFloat
  s : GoFloat
  w : GoFloat
deriving DecidableEq

/-- A Stop is a place where a bus stops (or could be hailed). -/
structure Stop where
  lat : GoFloat
  lon : GoFloat
deriving DecidableEq

/-- A Db is the in-memory transport database: the ingested routes and the
cached bounding box.  The zip reader field of the Go struct is only used
during Load and carries no information afterwards, so it is not part of
the model. -/
structure Db where
  routes : List Gpx
  bounds : Box
deriving DecidableEq

def defGpx : Gpx := { trk := [], metadata := { name := "" } }

def defPt : Trkpt := { lat := GoFloat.val 0, lon := GoFloat.val 0 }

/-- The point list of a route: the Go expression
`g.Trk[0].Trkseg[0].Trkpt`.  The Go code indexes position 0 directly;
after a successful Load both lists have length exactly 1 (the validation
in Load enforces this), so `headD` reads the same element Go reads. -/
def trkpts (g : Gpx) : List Trkpt :=
  ((g.trk.headD { trkseg := [] }).trkseg.headD { trkpt := [] }).trkpt

/-- All points of all routes, in route order then point order: the order
in which both the bounds fold and Nearest visit them. -/
def dbPoints (db : Db) : List Trkpt :=
  db.routes.flatMap trkpts

/-- Routes returns the number of routes. -/
def Routes (db : Db) : ℕ := db.routes.length

/-- Bounds returns the box bounding all the waypoints in the database. -/
def Bounds (db : Db) : Box := db.bounds

/- Load.  The archive reader (archive/zip) and the track parser (gpx) are
   external collaborators: an entry of the opened archive is modelled by
   its name and the joint outcome of zf.Open() and gpx.Parse(file). -/

inductive EntryResult where
  | openFail (msg : String)
  | parseFail (msg : String)
  | parsed (g : Gpx)
deriving DecidableEq

structure ZipEntry where
  name : String
  result : EntryResult
deriving DecidableEq

inductive LoadOutcome where
  | ok (db : Db)
  | fail (msg : String)
  | crash
deriving DecidableEq

/-- The per-entry loop of Load: each entry is opened and parsed, the
track/segment-count invariants are checked, and the document is appended
to the route list; the first failure aborts the whole load. -/
def ingest (acc : List Gpx) : List ZipEntry → Except String (List Gpx)
  | [] => Except.ok acc
  | { name := nm, result := EntryResult.openFail m } :: _ =>
    Except.error ("Failed to read file " ++ nm ++ ": " ++ m)
  | { name := nm, result := EntryResult.parseFail m } :: _ =>
    Except.error ("Failed to parse " ++ nm ++ ": " ++ m)
  | { name := nm, result := EntryResult.parsed g } :: rest =>
    if g.trk.length ≠ 1 then
      Except.error ("In file " ++ nm ++ " expected 1 track, found " ++
        toString g.trk.length)
    else if (g.trk.headD { trkseg := [] }).trkseg.length ≠ 1 then
      Except.error ("In file " ++ nm ++ " expected 1 track segment, found " ++
        toString (g.trk.headD { trkseg := [] }).trkseg.length)
    else ingest (acc ++ [g]) rest

def zeroBox : Box :=
  { n := GoFloat.val 0, e := GoFloat.val 0, s := GoFloat.val 0, w := GoFloat.val 0 }

/-- One point of the bounds fold.  The Go code runs four independent
`if` statements in sequence; each reads and writes only its own field of
the box, so the simultaneous record update is the same function. -/
def boundsStep (b : Box) (pt : Trkpt) : Box :=
  { n := if fgt pt.lat b.n then pt.lat else b.n
    e := if fgt pt.lon b.e then pt.lon else b.e
    s := if flt pt.lat b.s then pt.lat else b.s
    w := if flt pt.lon b.w then pt.lon else b.w }

/-- The bounds computation at the end of Load: if there is at least one
route and the first route has at least one point, seed the box from that
first point and fold every point of every route; otherwise leave the box
at the zero value. -/
def computeBounds (routes : List Gpx) : Box :=
  if 1 ≤ routes.length ∧ 1 ≤ (trkpts (routes.headD defGpx)).length then
    let pt0 := (trkpts (routes.headD defGpx)).headD defPt
    routes.foldl (fun b g => (trkpts g).foldl boundsStep b)
      { n := pt0.lat, e := pt0.lon, s := pt0.lat, w := pt0.lon }
  else zeroBox

/-- Load.  When zip.NewReader fails it returns a nil reader together with
the error; the Go code stores both, does not return, and immediately
ranges over `db.zip.File`, dereferencing the nil pointer: that run-time
panic is the `crash` outcome.  On a readable archive the entries are
ingested and the bounds computed. -/
def Load (zipResult : Except String (List ZipEntry)) : LoadOutcome :=
  match zipResult with
  | Except.error _ => LoadOutcome.crash
  | Except.ok entries =>
    match ingest [] entries with
    | Except.error msg => LoadOutcome.fail msg
    | Except.ok routes =>
      LoadOutcome.ok { routes := routes, bounds := computeBounds routes }

/- Nearest.  The great-circle distance comes from the external geo
   library; it is a parameter of the model.  geo.NewPoint merely stores
   its two arguments, and p.Lat()/p.Lng() return them unchanged, so the
   candidate Stop carries exactly the stored coordinates. -/

def noStopMsg : String := "No stop found matching criteria."

structure NState where
  minD : GoFloat
  stop : Option Stop
  err : Option String
deriving DecidableEq

/-- The body of the Nearest scan for one candidate point. -/
def nearestStep (dist : GoFloat × GoFloat → GoFloat × GoFloat → GoFloat)
    (p1 : GoFloat × GoFloat) (st : NState) (pt : Trkpt) : NState :=
  let d := dist p1 (pt.lat, pt.lon)
  if flt d st.minD then
    { minD := d, stop := some { lat := pt.lat, lon := pt.lon }, err := none }
  else st

/-- Nearest: scan every point of every route, in route order then point
order, keeping the strictly smallest distance seen so far; the running
minimum is seeded at the sentinel 1e10 and the error at the not-found
error, cleared on the first accepted candidate. -/
def Nearest (dist : GoFloat × GoFloat → GoFloat × GoFloat → GoFloat)
    (db : Db) (lat lon : GoFloat) : Option Stop × Option String :=
  let p1 := (lat, lon)
  let final := db.routes.foldl (fun st g => (trkpts g).foldl (nearestStep dist p1) st)
    { minD := GoFloat.val 10000000000, stop := none, err := some noStopMsg }
  (final.stop, final.err)

/-- Splitting a character list at the first occurrence of `sep`:
none when `sep` does not occur. -/
def splitFirst (sep : Char) : List Char → Option (List Char × List Char)
  | [] => none
  | c :: cs =>
    if c = sep then some ([], cs)
    else
      match splitFirst sep cs with
      | none => none
      | some (a, b) => some (c :: a, b)

/-- Go `strings.SplitN(in, "-", 3)` followed by the arity check: SplitN
with n = 3 cuts at the first two separators and keeps the remainder
(further separators included) as the third part; when it yields fewer
than 3 parts — fewer than two separators present — split_md returns its
named zero values, three empty strings. -/
def split_md (s : String) : String × String × String :=
  match splitFirst '-' s.data with
  | none => ("", "", "")
  | some (a, rest) =>
    match splitFirst '-' rest with
    | none => ("", "", "")
    | some (b, c) => (String.mk a, String.mk b, String.mk c)

/-- One path element of the Route encoder: lat and lon scaled by 1e6 and
converted to int32, the arguments of CreateGeoPoint. -/
def pathEntry (pt : Trkpt) : ℤ × ℤ :=
  (goInt32ofFloat (fmul pt.lat (GoFloat.val 1000000)),
   goInt32ofFloat (fmul pt.lon (GoFloat.val 1000000)))

/-- The path vector built by Route: the Go loop walks j from len-1 down
to 0 and prepends one 2x32-bit struct per point to the vector under
construction, so the finished vector lists the points in point order. -/
def buildPath (pts : List Trkpt) : List (ℤ × ℤ) :=
  ((List.range pts.length).reverse).foldl
    (fun acc j => pathEntry (pts.getD j defPt) :: acc) []

/-- The decoded content of the flatbuffer record built by Route: the
three strings written from split_md and the path vector.  The builder
itself (byte layout, offsets) is the external flatbuffers collaborator;
the record is modelled by the field values it round-trips. -/
structure RouteRecord where
  country : String
  city : String
  name : String
  path : List (ℤ × ℤ)
deriving DecidableEq

inductive RouteResult where
  | ok (r : RouteRecord)
  | fail (msg : String)
  | crash
deriving DecidableEq

def mkRecord (g : Gpx) : RouteRecord :=
  { country := (split_md g.metadata.name).1
    city := (split_md g.metadata.name).2.1
    name := (split_md g.metadata.name).2.2
    path := buildPath (trkpts g) }

/-- Route(i).  The Go code rejects only `i >= len(db.routes)` with the
"out of range" error; a negative i passes that test and the slice index
`db.routes[i]` then panics at run time, modelled by `crash`.  For a
valid index the flatbuffer record is built and returned. -/
def Route (db : Db) (i : ℤ) : RouteResult :=
  if i ≥ (Routes db : ℤ) then RouteResult.fail "out of range"
  else if i < 0 then RouteResult.crash
  else RouteResult.ok (mkRecord (db.routes.getD i.toNat defGpx))

/-- Little-endian two's-complement encoding of an integer as 8 bytes. -/
def le64 (n : ℤ) : List ℕ :=
  let m := (n % (2 : ℤ) ^ 64).toNat
  [m % 256, m / 256 % 256, m / 256 ^ 2 % 256, m / 256 ^ 3 % 256,
   m / 256 ^ 4 % 256, m / 256 ^ 5 % 256, m / 256 ^ 6 % 256, m / 256 ^ 7 % 256]

/-- Modelled from the spec: the 16-byte record of one point in the flat
Points encoding — latitude then longitude, each scaled by 1,000,000 and
converted to int64 (the repository's Points implementation is not among
the given sources; only routedb.go is), written as 64-bit signed
little-endian integers. -/
def flatPoint (pt : Trkpt) : List ℕ :=
  le64 (goInt64ofFloat (fmul pt.lat (GoFloat.val 1000000))) ++
  le64 (goInt64ofFloat (fmul pt.lon (GoFloat.val 1000000)))

/-- Modelled from the spec: Points(i) emits one 16-byte record per point
of route i, in point order, with no header or framing, and fails with
the out-of-range error for i outside [0, Routes()).  The Points
implementation itself is not among the given sources. -/
def Points (db : Db) (i : ℤ) : Except String (List ℕ) :=
  if i < 0 ∨ (Routes db : ℤ) ≤ i then Except.error "out of range"
  else Except.ok ((trkpts (db.routes.getD i.toNat defGpx)).flatMap flatPoint)

/- Concrete fixtures used by witnesses and counterexamples. -/

/-- A single-track single-segment document, as Load's validation demands. -/
def mkGpx (md : String) (pts : List Trkpt) : Gpx :=
  { trk := [{ trkseg := [{ trkpt := pts }] }], metadata := { name := md } }

def ptV (a b : ℚ) : Trkpt := { lat := GoFloat.val a, lon := GoFloat.val b }

def dbW1 : Db :=
  { routes := [mkGpx "kg-osh-a" [ptV 1 2, ptV 3 4]]
    bounds := computeBounds [mkGpx "kg-osh-a" [ptV 1 2, ptV 3 4]] }

def dbW3 : Db :=
  { routes := [mkGpx "kg-osh-b" [ptV 1 1]]
    bounds := computeBounds [mkGpx "kg-osh-b" [ptV 1 1]] }

def gpxC4 : Gpx := mkGpx "a-b-c" [ptV (Rat.divInt 10000009 10000000) 0]

def dbC4 : Db := { routes := [gpxC4], bounds := computeBounds [gpxC4] }

def gpxEmptyPts : Gpx := mkGpx "kg-osh-none" []

def gpxP5 : Gpx := mkGpx "kg-osh-five" [ptV 5 5]

def entE : ZipEntry := { name := "e.gpx", result := EntryResult.parsed gpxEmptyPts }

def entP : ZipEntry := { name := "p.gpx", result := EntryResult.parsed gpxP5 }

def dbCE5 : Db := { routes := [gpxEmptyPts, gpxP5], bounds := zeroBox }

def dbW5 : Db :=
  { routes := [mkGpx "kg-osh-w5" [ptV 1 2, ptV 3 0]]
    bounds := computeBounds [mkGpx "kg-osh-w5" [ptV 1 2, ptV 3 0]] }

def entW5 : ZipEntry :=
  { name := "w5.gpx", result := EntryResult.parsed (mkGpx "kg-osh-w5" [ptV 1 2, ptV 3 0]) }

def dbW6 : Db :=
  { routes := [mkGpx "kg-osh-c" [ptV 3 0, ptV 1 0, ptV 1 5]]
    bounds := computeBounds [mkGpx "kg-osh-c" [ptV 3 0, ptV 1 0, ptV 1 5]] }

/-- A concrete distance function for the Nearest witness: the candidate
point's latitude value. -/
def distW : GoFloat × GoFloat → GoFloat × GoFloat → GoFloat :=
  fun _ q => q.1

def fqW : Trkpt → ℚ :=
  fun pt => match pt.lat with
  | GoFloat.val a => a
  | GoFloat.nan => 0

def dbW7 : Db := { routes := [mkGpx "kg-osh-d" []], bounds := zeroBox }

def dbW8 : Db :=
  { routes := [mkGpx "kg-osh-7-Express" [ptV 1 2, ptV 3 4, ptV 5 6]]
    bounds := computeBounds [mkGpx "kg-osh-7-Express" [ptV 1 2, ptV 3 4, ptV 5 6]] }

def entW9 : ZipEntry := { name := "w9.gpx", result := EntryResult.parsed (mkGpx "kg-osh-a" [ptV 1 2]) }

def dbW9 : Db :=
  { routes := [mkGpx "kg-osh-a" [ptV 1 2]]
    bounds := computeBounds [mkGpx "kg-osh-a" [ptV 1 2]] }

def ptNan : Trkpt := { lat := GoFloat.nan, lon := GoFloat.val 0 }

def gpxNan : Gpx := mkGpx "kg-osh-n" [ptNan]

def entNan : ZipEntry := { name := "n.gpx", result := EntryResult.parsed gpxNan }

def dbNan : Db := { routes := [gpxNan], bounds := computeBounds [gpxNan] }

/- General helper lemmas. -/

lemma foldl_nested_flatMap {α β σ : Type _} (f : σ → β → σ) (g : α → List β) :
    ∀ (l : List α) (init : σ),
      l.foldl (fun st a => (g a).foldl f st) init = (l.flatMap g).foldl f init := by
  intro l
  induction l with
  | nil => intro init; rfl
  | cons a t ih =>
    intro init
    rw [List.flatMap_cons, List.foldl_append, List.foldl_cons]
    exact ih _

lemma flatMap_nil_of {α β : Type _} (f : α → List β) :
    ∀ l : List α, (∀ g ∈ l, f g = []) → l.flatMap f = [] := by
  intro l
  induction l with
  | nil => intro _; rfl
  | cons a t ih =>
    intro h
    rw [List.flatMap_cons, h a (by simp), ih (fun g hg => h g (by simp [hg]))]
    rfl

lemma foldl_prepend {β : Type _} (e : ℕ → β) :
    ∀ (l : List ℕ) (acc : List β),
      l.foldl (fun acc j => e j :: acc) acc = (l.reverse.map e) ++ acc := by
  intro l
  induction l with
  | nil => intro acc; simp
  | cons a t ih => intro acc; simp [List.foldl_cons, ih]

lemma range_map_getD {α β : Type _} (h : α → β) (d : α) :
    ∀ (l : List α), (List.range l.length).map (fun j => h (l.getD j d)) = l.map h := by
  intro l
  induction l with
  | nil => rfl
  | cons a t ih =>
    show (List.range (t.length + 1)).map _ = _
    rw [List.range_succ_eq_map, List.map_cons, List.map_map]
    have htmp : List.map ((fun j => h ((a :: t).getD j d)) ∘ Nat.succ) (List.range t.length)
        = List.map (fun j => h (t.getD j d)) (List.range t.length) :=
      List.map_congr_left (fun x _ => by simp [Function.comp, List.getD_cons_succ])
    rw [htmp]
    simp only [List.getD_cons_zero, List.map_cons]
    rw [ih]

lemma buildPath_eq_map (pts : List Trkpt) : buildPath pts = pts.map pathEntry := by
  unfold buildPath
  rw [foldl_prepend (fun j => pathEntry (pts.getD j defPt))]
  rw [List.reverse_reverse, List.append_nil]
  exact range_map_getD pathEntry defPt pts

lemma buildPath_length (pts : List Trkpt) : (buildPath pts).length = pts.length := by
  rw [buildPath_eq_map, List.length_map]

lemma ingest_sound : ∀ (entries : List ZipEntry) (acc routes : List Gpx),
    ingest acc entries = Except.ok routes →
    (∀ g ∈ acc, g.trk.length = 1 ∧ ∀ t ∈ g.trk, t.trkseg.length = 1) →
    ∀ g ∈ routes, g.trk.length = 1 ∧ ∀ t ∈ g.trk, t.trkseg.length = 1 := by
  intro entries
  induction entries with
  | nil =>
    intro acc routes h hacc
    rw [ingest] at h
    injection h with h
    subst h
    exact hacc
  | cons e rest ih =>
    intro acc routes h hacc
    obtain ⟨nm, res⟩ := e
    cases res with
    | openFail m => rw [ingest] at h; cases h
    | parseFail m => rw [ingest] at h; cases h
    | parsed g =>
      rw [ingest] at h
      by_cases h1 : g.trk.length = 1
      · rw [if_neg (not_ne_iff.mpr h1)] at h
        by_cases h2 : (g.trk.headD { trkseg := [] }).trkseg.length = 1
        · rw [if_neg (not_ne_iff.mpr h2)] at h
          refine ih (acc ++ [g]) routes h ?_
          intro g' hg'
          rcases List.mem_append.mp hg' with hg' | hg'
          · exact hacc g' hg'
          · have hg'' : g' = g := by simpa using hg'
            subst hg''
            refine ⟨h1, ?_⟩
            intro t ht
            rcases List.length_eq_one.mp h1 with ⟨a, ha⟩
            rw [ha] at ht
            have hta : t = a := by simpa using ht
            subst hta
            rw [ha] at h2
            simpa using h2
        · rw [if_pos h2] at h; cases h
      · rw [if_pos h1] at h; cases h

/- Claim theorems. -/

/-- C9: every database successfully returned by Load contains only routes
with exactly one track holding exactly one segment, so the Trk[0] and
Trkseg[0] accesses performed later by Nearest, by the bounds fold and by
Route for a valid index are within bounds. -/
theorem c9_load_invariant (z : Except String (List ZipEntry)) (db : Db)
    (h : Load z = LoadOutcome.ok db) :
    ∀ g ∈ db.routes, g.trk.length = 1 ∧ ∀ t ∈ g.trk, t.trkseg.length = 1 := by
  cases z with
  | error m => cases h
  | ok entries =>
    rw [Load] at h
    cases hi : ingest [] entries with
    | error m => rw [hi] at h; cases h
    | ok routes =>
      rw [hi] at h
      injection h with h
      subst h
      exact ingest_sound entries [] routes hi (by simp)

theorem c9_witness :
    Load (Except.ok [entW9]) = LoadOutcome.ok dbW9 ∧
    (∀ g ∈ dbW9.routes, g.trk.length = 1 ∧ ∀ t ∈ g.trk, t.trkseg.length = 1) :=
  ⟨by decide, c9_load_invariant (Except.ok [entW9]) dbW9 (by decide)⟩

/-- C2: the claim says an unreadable archive makes Load fail with an
ArchiveError and return no usable Database; the code instead stores the
nil reader returned alongside the error, fails to return early, and
dereferences the nil pointer while ranging over db.zip.File — a run-time
panic, not an error return.  This theorem evaluates the model at that
failing input. -/
theorem c2_archive_error_crash (msg : String) :
    Load (Except.error msg) = LoadOutcome.crash := rfl

/-- C3 counterexample: on a database with one route, Route(-1) passes the
only range check (`i >= len(db.routes)`), and the slice access
db.routes[-1] panics at run time instead of failing with the
out-of-range error. -/
theorem c3_counterexample :
    Route dbW3 (-1) = RouteResult.crash ∧
    Route dbW3 (-1) ≠ RouteResult.fail "out of range" := by
  decide

/-- C3 (amended): Route(i) fails with OutOfRangeError and returns no
record for every i ≥ Routes(); for 0 ≤ i < Routes() it returns a record;
a negative i is not range-checked and panics on the slice index instead
of failing with OutOfRangeError. -/
theorem c3_route_range (db : Db) (i : ℤ) :
    ((Routes db : ℤ) ≤ i → Route db i = RouteResult.fail "out of range") ∧
    (0 ≤ i → i < (Routes db : ℤ) → ∃ r, Route db i = RouteResult.ok r) := by
  constructor
  · intro h
    unfold Route
    rw [if_pos h]
  · intro h0 hlt
    refine ⟨mkRecord (db.routes.getD i.toNat defGpx), ?_⟩
    unfold Route
    rw [if_neg (by omega), if_neg (by omega)]

theorem c3_witness :
    ((Routes dbW3 : ℤ) ≤ 5 ∧ Route dbW3 5 = RouteResult.fail "out of range") ∧
    (0 ≤ (0 : ℤ) ∧ (0 : ℤ) < (Routes dbW3 : ℤ) ∧
      ∃ r, Route dbW3 0 = RouteResult.ok r) :=
  ⟨⟨by decide, (c3_route_range dbW3 5).1 (by decide)⟩,
   ⟨by decide, by decide, (c3_route_range dbW3 0).2 (by decide) (by decide)⟩⟩

/-- C7: on a database whose routes contain zero points in total, Nearest
accepts no candidate and returns no Stop together with the not-found
error. -/
theorem c7_nearest_empty (dist : GoFloat × GoFloat → GoFloat × GoFloat → GoFloat)
    (db : Db) (lat lon : GoFloat) (h : ∀ g ∈ db.routes, trkpts g = []) :
    Nearest dist db lat lon = (none, some noStopMsg) := by
  simp only [Nearest]
  rw [foldl_nested_flatMap, flatMap_nil_of trkpts db.routes h]
  rfl

theorem c7_witness :
    (∀ g ∈ dbW7.routes, trkpts g = []) ∧
    Nearest (fun _ _ => GoFloat.val 0) dbW7 (GoFloat.val 1) (GoFloat.val 2) =
      (none, some noStopMsg) :=
  ⟨by decide, c7_nearest_empty _ dbW7 _ _ (by decide)⟩

/-- C10: there is a loaded database with a stored point and a query for
which Nearest still returns the not-found error: a stored NaN coordinate
makes the great-circle distance NaN (the hypothesis on dist is exactly
the NaN-propagation of the external haversine), NaN is never strictly
below the 1e10 sentinel, and no candidate is ever accepted. -/
theorem c10_nan_not_found (dist : GoFloat × GoFloat → GoFloat × GoFloat → GoFloat)
    (hnan : ∀ p q, q.1 = GoFloat.nan → dist p q = GoFloat.nan) :
    Load (Except.ok [entNan]) = LoadOutcome.ok dbNan ∧
    dbPoints dbNan ≠ [] ∧
    Nearest dist dbNan (GoFloat.val 0) (GoFloat.val 0) = (none, some noStopMsg) := by
  refine ⟨by decide, by decide, ?_⟩
  have hd : dist (GoFloat.val 0, GoFloat.val 0) (GoFloat.nan, GoFloat.val 0) = GoFloat.nan :=
    hnan _ _ rfl
  simp [Nearest, dbNan, gpxNan, mkGpx, trkpts, ptNan, nearestStep, hd, flt]

theorem c10_witness :
    Load (Except.ok [entNan]) = LoadOutcome.ok dbNan ∧
    dbPoints dbNan ≠ [] ∧
    Nearest (fun _ _ => GoFloat.nan) dbNan (GoFloat.val 0) (GoFloat.val 0) =
      (none, some noStopMsg) :=
  c10_nan_not_found (fun _ _ => GoFloat.nan) (fun _ _ _ => rfl)

/-- C8: for a loaded database with at least one route, the record
produced by Route(0) carries exactly the three strings obtained by
splitting the source metadata on its first two separators (split_md) and
a path whose length equals the number of points of the source track. -/
theorem c8_roundtrip (db : Db) (h : 0 < db.routes.length) :
    ∃ r, Route db 0 = RouteResult.ok r ∧
      r.country = (split_md ((db.routes.getD 0 defGpx).metadata.name)).1 ∧
      r.city = (split_md ((db.routes.getD 0 defGpx).metadata.name)).2.1 ∧
      r.name = (split_md ((db.routes.getD 0 defGpx).metadata.name)).2.2 ∧
      r.path.length = (trkpts (db.routes.getD 0 defGpx)).length := by
  refine ⟨mkRecord (db.routes.getD 0 defGpx), ?_, rfl, rfl, rfl, ?_⟩
  · unfold Route Routes
    rw [if_neg (by omega), if_neg (by omega)]
    rfl
  · simp [mkRecord, buildPath_length]

theorem c8_witness :
    0 < dbW8.routes.length ∧
    ∃ r, Route dbW8 0 = RouteResult.ok r ∧
      r.country = (split_md ((dbW8.routes.getD 0 defGpx).metadata.name)).1 ∧
      r.city = (split_md ((dbW8.routes.getD 0 defGpx).metadata.name)).2.1 ∧
      r.name = (split_md ((dbW8.routes.getD 0 defGpx).metadata.name)).2.2 ∧
      r.path.length = (trkpts (dbW8.routes.getD 0 defGpx)).length :=
  ⟨by decide, c8_roundtrip dbW8 (by decide)⟩

/- Exactness of fmul and byte-level lemmas for the flat encoding. -/

lemma fmul_val (a b : ℚ) :
    fmul (GoFloat.val a) (GoFloat.val b) = GoFloat.val (a * b) := by
  show GoFloat.val (Rat.divInt (a.num * b.num) ((a.den : ℤ) * (b.den : ℤ))) = _
  congr 1
  rw [Rat.divInt_eq_div]
  push_cast
  rw [← div_mul_div_comm, Rat.num_div_den, Rat.num_div_den]

lemma le64_length (n : ℤ) : (le64 n).length = 8 := rfl

lemma flatPoint_length (pt : Trkpt) : (flatPoint pt).length = 16 := rfl

lemma take_len_append {α : Type _} (l₁ l₂ : List α) (n : ℕ) (h : l₁.length = n) :
    (l₁ ++ l₂).take n = l₁ := by
  subst h; exact List.take_left _ _

lemma drop_len_append {α : Type _} (l₁ l₂ : List α) (n : ℕ) (h : l₁.length = n) :
    (l₁ ++ l₂).drop n = l₂ := by
  subst h; exact List.drop_left _ _

lemma flatMap_flatPoint_length : ∀ pts : List Trkpt,
    (pts.flatMap flatPoint).length = 16 * pts.length := by
  intro pts
  induction pts with
  | nil => rfl
  | cons a t ih =>
    rw [List.flatMap_cons, List.length_append, flatPoint_length, ih, List.length_cons]
    ring

lemma flatMap_flatPoint_drop : ∀ (pts : List Trkpt) (j : ℕ),
    (pts.flatMap flatPoint).drop (16 * j) = (pts.drop j).flatMap flatPoint := by
  intro pts
  induction pts with
  | nil => intro j; simp
  | cons a t ih =>
    intro j
    cases j with
    | zero => simp
    | succ j' =>
      rw [List.flatMap_cons]
      have h16 : 16 * (j' + 1) = (flatPoint a).length + 16 * j' := by
        rw [flatPoint_length]; ring
      rw [h16, ← List.drop_drop, List.drop_left, List.drop_succ_cons]
      exact ih j'

lemma flatPoint_take8 (pt : Trkpt) (rest : List ℕ) :
    ((flatPoint pt ++ rest).take 8 =
      le64 (goInt64ofFloat (fmul pt.lat (GoFloat.val 1000000)))) ∧
    (((flatPoint pt ++ rest).drop 8).take 8 =
      le64 (goInt64ofFloat (fmul pt.lon (GoFloat.val 1000000)))) := by
  unfold flatPoint
  rw [List.append_assoc]
  constructor
  · exact take_len_append _ _ 8 rfl
  · rw [drop_len_append (le64 (goInt64ofFloat (fmul pt.lat (GoFloat.val 1000000)))) _ 8 rfl]
    exact take_len_append _ _ 8 rfl

lemma flatMap_record (pts : List Trkpt) (j : ℕ) (hj : j < pts.length) :
    (((pts.flatMap flatPoint).drop (16 * j)).take 8 =
      le64 (goInt64ofFloat (fmul (pts[j]).lat (GoFloat.val 1000000)))) ∧
    ((((pts.flatMap flatPoint).drop (16 * j)).drop 8).take 8 =
      le64 (goInt64ofFloat (fmul (pts[j]).lon (GoFloat.val 1000000)))) := by
  rw [flatMap_flatPoint_drop]
  rw [List.drop_eq_getElem_cons hj, List.flatMap_cons]
  exact flatPoint_take8 _ _

/-- C1: for a loaded database and 0 ≤ i < Routes(), Points(i) returns a
byte stream of one 16-byte record per point of route i, in point order —
bytes 16j..16j+7 are the j-th latitude and bytes 16j+8..16j+15 the j-th
longitude, scaled by 1e6 as 64-bit signed little-endian integers, with
no header or framing (the length is exactly 16 times the point count);
outside that range Points fails with the out-of-range error. -/
theorem c1_points_flat (db : Db) (i : ℤ) :
    ((0 ≤ i ∧ i < (Routes db : ℤ)) →
      ∃ bs, Points db i = Except.ok bs ∧
        bs.length = 16 * (trkpts (db.routes.getD i.toNat defGpx)).length ∧
        ∀ (j : ℕ) (hj : j < (trkpts (db.routes.getD i.toNat defGpx)).length),
          ((bs.drop (16 * j)).take 8 =
            le64 (goInt64ofFloat (fmul ((trkpts (db.routes.getD i.toNat defGpx))[j]).lat
              (GoFloat.val 1000000)))) ∧
          (((bs.drop (16 * j)).drop 8).take 8 =
            le64 (goInt64ofFloat (fmul ((trkpts (db.routes.getD i.toNat defGpx))[j]).lon
              (GoFloat.val 1000000))))) ∧
    (¬(0 ≤ i ∧ i < (Routes db : ℤ)) → Points db i = Except.error "out of range") := by
  constructor
  · intro hin
    refine ⟨(trkpts (db.routes.getD i.toNat defGpx)).flatMap flatPoint, ?_, ?_, ?_⟩
    · unfold Points
      rw [if_neg (by omega)]
    · exact flatMap_flatPoint_length _
    · intro j hj
      exact flatMap_record _ j hj
  · intro hout
    unfold Points
    rw [if_pos (by omega)]

theorem c1_witness :
    (0 ≤ (0 : ℤ) ∧ (0 : ℤ) < (Routes dbW1 : ℤ)) ∧
    (∃ bs, Points dbW1 0 = Except.ok bs ∧
      bs.length = 16 * (trkpts (dbW1.routes.getD (0 : ℤ).toNat defGpx)).length ∧
      ∀ (j : ℕ) (hj : j < (trkpts (dbW1.routes.getD (0 : ℤ).toNat defGpx)).length),
        ((bs.drop (16 * j)).take 8 =
          le64 (goInt64ofFloat (fmul ((trkpts (dbW1.routes.getD (0 : ℤ).toNat defGpx))[j]).lat
            (GoFloat.val 1000000)))) ∧
        (((bs.drop (16 * j)).drop 8).take 8 =
          le64 (goInt64ofFloat (fmul ((trkpts (dbW1.routes.getD (0 : ℤ).toNat defGpx))[j]).lon
            (GoFloat.val 1000000))))) :=
  ⟨by decide, (c1_points_flat dbW1 0).1 (by decide)⟩

/-- C4 counterexample: the point with latitude 1.0000009 (exactly
10000009/10000000) is encoded by Route as 1000000 — `int32(lat * 1e6)`
truncates toward zero — while the claim's round(sourceDegree * 1e6)
equals 1000001, so the claim fails at this input. -/
theorem c4_counterexample :
    Route dbC4 0 = RouteResult.ok
      { country := "a", city := "b", name := "c", path := [(1000000, 0)] } ∧
    round (Rat.divInt 10000009 10000000 * 1000000) = 1000001 ∧
    (1000000 : ℤ) ≠ 1000001 := by
  refine ⟨by decide, ?_, by decide⟩
  rw [show Rat.divInt 10000009 10000000 * 1000000 = (10000009 : ℚ) / 10 by
    rw [Rat.divInt_eq_div]; norm_num]
  rw [round_eq]
  norm_num

lemma ratTrunc_range (q c : ℚ) (hc : 0 ≤ c) (h1 : -c ≤ q) (h2 : q ≤ c) (n : ℤ)
    (hn : c ≤ (n : ℚ)) : -n ≤ ratTrunc q ∧ ratTrunc q ≤ n := by
  have hn0 : 0 ≤ n := by exact_mod_cast le_trans hc hn
  unfold ratTrunc
  split
  · rename_i hqneg
    constructor
    · have hq : (-n : ℚ) ≤ q := le_trans (by exact_mod_cast neg_le_neg hn) h1
      calc (-n : ℤ) = Int.ceil ((-n : ℤ) : ℚ) := (Int.ceil_intCast _).symm
        _ ≤ Int.ceil q := Int.ceil_le_ceil (by exact_mod_cast hq)
    · have hq0 : Int.ceil q ≤ 0 := Int.ceil_le.mpr (by exact_mod_cast le_of_lt hqneg)
      omega
  · rename_i hnlt
    push_neg at hnlt
    constructor
    · have h0 : 0 ≤ Int.floor q := Int.floor_nonneg.mpr hnlt
      omega
    · calc Int.floor q ≤ Int.floor ((n : ℤ) : ℚ) := Int.floor_le_floor (by exact_mod_cast le_trans h2 hn)
        _ = n := Int.floor_intCast _

/-- C4 (amended): the j-th path entry of the record produced by Route(i)
carries the source coordinates scaled by 1e6 and truncated toward zero —
the rounding mode of Go's float-to-int32 conversion — not rounded to
nearest; stated for finite coordinates whose magnitude keeps the scaled
value inside the int32 range. -/
theorem c4_path_trunc (db : Db) (i : ℤ) (hi0 : 0 ≤ i) (hi : i < (Routes db : ℤ))
    (j : ℕ) (hj : j < (trkpts (db.routes.getD i.toNat defGpx)).length)
    (qa qo : ℚ)
    (hla : ((trkpts (db.routes.getD i.toNat defGpx))[j]).lat = GoFloat.val qa)
    (hlo : ((trkpts (db.routes.getD i.toNat defGpx))[j]).lon = GoFloat.val qo)
    (hra : -2147 ≤ qa ∧ qa ≤ 2147) (hro : -2147 ≤ qo ∧ qo ≤ 2147) :
    ∃ r, Route db i = RouteResult.ok r ∧
      r.path[j]? = some (ratTrunc (qa * 1000000), ratTrunc (qo * 1000000)) := by
  have key : ∀ q : ℚ, -2147 ≤ q → q ≤ 2147 →
      goInt32ofFloat (GoFloat.val (q * 1000000)) = ratTrunc (q * 1000000) := by
    intro q hq1 hq2
    have hb := ratTrunc_range (q * 1000000) (2147 * 1000000) (by norm_num)
      (by nlinarith) (by nlinarith) 2147000000 (by norm_num)
    show (if ratTrunc (q * 1000000) < -(2 ^ 31) ∨ 2 ^ 31 ≤ ratTrunc (q * 1000000) then 0
      else ratTrunc (q * 1000000)) = ratTrunc (q * 1000000)
    rw [if_neg]
    push_neg
    constructor
    · calc -(2 ^ 31 : ℤ) = -2147483648 := by norm_num
        _ ≤ -2147000000 := by omega
        _ ≤ ratTrunc (q * 1000000) := hb.1
    · calc ratTrunc (q * 1000000) ≤ 2147000000 := hb.2
        _ < 2147483648 := by omega
        _ = 2 ^ 31 := by norm_num
  refine ⟨mkRecord (db.routes.getD i.toNat defGpx), ?_, ?_⟩
  · unfold Route
    rw [if_neg (by omega), if_neg (by omega)]
  · simp only [mkRecord, buildPath_eq_map]
    rw [List.getElem?_map, List.getElem?_eq_getElem hj]
    simp only [Option.map_some']
    unfold pathEntry
    rw [hla, hlo, fmul_val, fmul_val, key qa hra.1 hra.2, key qo hro.1 hro.2]

theorem c4_witness :
    (0 ≤ (0 : ℤ) ∧ (0 : ℤ) < (Routes dbW1 : ℤ) ∧
      (0 : ℕ) < (trkpts (dbW1.routes.getD (0 : ℤ).toNat defGpx)).length ∧
      ((trkpts (dbW1.routes.getD (0 : ℤ).toNat defGpx))[0]).lat = GoFloat.val 1 ∧
      ((trkpts (dbW1.routes.getD (0 : ℤ).toNat defGpx))[0]).lon = GoFloat.val 2 ∧
      (-2147 ≤ (1 : ℚ) ∧ (1 : ℚ) ≤ 2147) ∧ (-2147 ≤ (2 : ℚ) ∧ (2 : ℚ) ≤ 2147)) ∧
    (∃ r, Route dbW1 0 = RouteResult.ok r ∧
      r.path[0]? = some (ratTrunc (1 * 1000000), ratTrunc (2 * 1000000))) :=
  ⟨⟨by decide, by decide, by decide, by decide, by decide, ⟨by decide, by decide⟩,
    ⟨by decide, by decide⟩⟩,
   c4_path_trunc dbW1 0 (by decide) (by decide) 0 (by decide) 1 2 (by decide) (by decide)
     ⟨by decide, by decide⟩ ⟨by decide, by decide⟩⟩

/- The bounds fold: projections and running max/min characterisation. -/

lemma goFoldMax (l : List GoFloat) (m : ℚ) (hl : ∀ x ∈ l, ∃ q, x = GoFloat.val q) :
    ∃ r : ℚ, l.foldl (fun a x => if fgt x a then x else a) (GoFloat.val m) = GoFloat.val r ∧
      m ≤ r ∧ (∀ q : ℚ, GoFloat.val q ∈ l → q ≤ r) ∧ (r = m ∨ GoFloat.val r ∈ l) := by
  induction l generalizing m with
  | nil => exact ⟨m, rfl, le_refl m, by simp, Or.inl rfl⟩
  | cons x t ih =>
    obtain ⟨q, hq⟩ := hl x (by simp)
    subst hq
    rw [List.foldl_cons]
    by_cases hmq : m < q
    · rw [show (if fgt (GoFloat.val q) (GoFloat.val m) then GoFloat.val q else GoFloat.val m)
        = GoFloat.val q by simp [fgt, hmq]]
      obtain ⟨r, hr, hqr, hbound, hmem⟩ := ih q (fun y hy => hl y (by simp [hy]))
      refine ⟨r, hr, le_trans (le_of_lt hmq) hqr, ?_, ?_⟩
      · intro p hp
        rcases List.mem_cons.mp hp with hp | hp
        · have hpq := GoFloat.val.inj hp
          subst hpq
          exact hqr
        · exact hbound p hp
      · rcases hmem with h | h
        · exact Or.inr (by simp [h])
        · exact Or.inr (by simp [h])
    · rw [show (if fgt (GoFloat.val q) (GoFloat.val m) then GoFloat.val q else GoFloat.val m)
        = GoFloat.val m by simp [fgt, hmq]]
      obtain ⟨r, hr, hmr, hbound, hmem⟩ := ih m (fun y hy => hl y (by simp [hy]))
      refine ⟨r, hr, hmr, ?_, ?_⟩
      · intro p hp
        rcases List.mem_cons.mp hp with hp | hp
        · have hpq := GoFloat.val.inj hp
          subst hpq
          exact le_trans (le_of_not_lt hmq) hmr
        · exact hbound p hp
      · rcases hmem with h | h
        · exact Or.inl h
        · exact Or.inr (by simp [h])

lemma goFoldMin (l : List GoFloat) (m : ℚ) (hl : ∀ x ∈ l, ∃ q, x = GoFloat.val q) :
    ∃ r : ℚ, l.foldl (fun a x => if flt x a then x else a) (GoFloat.val m) = GoFloat.val r ∧
      r ≤ m ∧ (∀ q : ℚ, GoFloat.val q ∈ l → r ≤ q) ∧ (r = m ∨ GoFloat.val r ∈ l) := by
  induction l generalizing m with
  | nil => exact ⟨m, rfl, le_refl m, by simp, Or.inl rfl⟩
  | cons x t ih =>
    obtain ⟨q, hq⟩ := hl x (by simp)
    subst hq
    rw [List.foldl_cons]
    by_cases hmq : q < m
    · rw [show (if flt (GoFloat.val q) (GoFloat.val m) then GoFloat.val q else GoFloat.val m)
        = GoFloat.val q by simp [flt, hmq]]
      obtain ⟨r, hr, hqr, hbound, hmem⟩ := ih q (fun y hy => hl y (by simp [hy]))
      refine ⟨r, hr, le_trans hqr (le_of_lt hmq), ?_, ?_⟩
      · intro p hp
        rcases List.mem_cons.mp hp with hp | hp
        · have hpq := GoFloat.val.inj hp
          subst hpq
          exact hqr
        · exact hbound p hp
      · rcases hmem with h | h
        · exact Or.inr (by simp [h])
        · exact Or.inr (by simp [h])
    · rw [show (if flt (GoFloat.val q) (GoFloat.val m) then GoFloat.val q else GoFloat.val m)
        = GoFloat.val m by simp [flt, hmq]]
      obtain ⟨r, hr, hmr, hbound, hmem⟩ := ih m (fun y hy => hl y (by simp [hy]))
      refine ⟨r, hr, hmr, ?_, ?_⟩
      · intro p hp
        rcases List.mem_cons.mp hp with hp | hp
        · have hpq := GoFloat.val.inj hp
          subst hpq
          exact le_trans hmr (le_of_not_lt hmq)
        · exact hbound p hp
      · rcases hmem with h | h
        · exact Or.inl h
        · exact Or.inr (by simp [h])

lemma bounds_foldl_n : ∀ (l : List Trkpt) (b : Box),
    (l.foldl boundsStep b).n =
      (l.map Trkpt.lat).foldl (fun a x => if fgt x a then x else a) b.n := by
  intro l
  induction l with
  | nil => intro b; rfl
  | cons p t ih =>
    intro b
    rw [List.foldl_cons, List.map_cons, List.foldl_cons, ih]
    rfl

lemma bounds_foldl_e : ∀ (l : List Trkpt) (b : Box),
    (l.foldl boundsStep b).e =
      (l.map Trkpt.lon).foldl (fun a x => if fgt x a then x else a) b.e := by
  intro l
  induction l with
  | nil => intro b; rfl
  | cons p t ih =>
    intro b
    rw [List.foldl_cons, List.map_cons, List.foldl_cons, ih]
    rfl

lemma bounds_foldl_s : ∀ (l : List Trkpt) (b : Box),
    (l.foldl boundsStep b).s =
      (l.map Trkpt.lat).foldl (fun a x => if flt x a then x else a) b.s := by
  intro l
  induction l with
  | nil => intro b; rfl
  | cons p t ih =>
    intro b
    rw [List.foldl_cons, List.map_cons, List.foldl_cons, ih]
    rfl

lemma bounds_foldl_w : ∀ (l : List Trkpt) (b : Box),
    (l.foldl boundsStep b).w =
      (l.map Trkpt.lon).foldl (fun a x => if flt x a then x else a) b.w := by
  intro l
  induction l with
  | nil => intro b; rfl
  | cons p t ih =>
    intro b
    rw [List.foldl_cons, List.map_cons, List.foldl_cons, ih]
    rfl

lemma load_ok_state (z : Except String (List ZipEntry)) (db : Db)
    (h : Load z = LoadOutcome.ok db) : db.bounds = computeBounds db.routes := by
  cases z with
  | error m => cases h
  | ok entries =>
    rw [Load] at h
    cases hi : ingest [] entries with
    | error m => rw [hi] at h; cases h
    | ok routes =>
      rw [hi] at h
      injection h with h
      subst h
      rfl

lemma box_eq_of_fields (B C : Box) (h1 : B.n = C.n) (h2 : B.e = C.e)
    (h3 : B.s = C.s) (h4 : B.w = C.w) : B = C := by
  cases B
  cases C
  simp only at h1 h2 h3 h4
  subst h1
  subst h2
  subst h3
  subst h4
  rfl

lemma computeBounds_spec (routes : List Gpx)
    (hne : routes ≠ []) (hpts : trkpts (routes.headD defGpx) ≠ [])
    (hv : ∀ pt ∈ routes.flatMap trkpts,
      (∃ a, pt.lat = GoFloat.val a) ∧ (∃ b, pt.lon = GoFloat.val b)) :
    ∃ n e s w : ℚ,
      computeBounds routes =
        { n := GoFloat.val n, e := GoFloat.val e, s := GoFloat.val s, w := GoFloat.val w } ∧
      (∀ pt ∈ routes.flatMap trkpts, ∀ a b : ℚ,
        pt.lat = GoFloat.val a → pt.lon = GoFloat.val b →
        a ≤ n ∧ s ≤ a ∧ b ≤ e ∧ w ≤ b) ∧
      (∃ pt ∈ routes.flatMap trkpts, pt.lat = GoFloat.val n) ∧
      (∃ pt ∈ routes.flatMap trkpts, pt.lat = GoFloat.val s) ∧
      (∃ pt ∈ routes.flatMap trkpts, pt.lon = GoFloat.val e) ∧
      (∃ pt ∈ routes.flatMap trkpts, pt.lon = GoFloat.val w) := by
  obtain ⟨g0, rest, hr⟩ := List.exists_cons_of_ne_nil hne
  have hg0 : routes.headD defGpx = g0 := by rw [hr]; rfl
  rw [hg0] at hpts
  obtain ⟨p0, ps, hp⟩ := List.exists_cons_of_ne_nil hpts
  have hmem0 : p0 ∈ routes.flatMap trkpts := by
    rw [hr, List.flatMap_cons, hp]
    exact List.mem_append_left _ (List.mem_cons_self _ _)
  obtain ⟨⟨a0, ha0⟩, ⟨b0, hb0⟩⟩ := hv p0 hmem0
  have hpt0 : (trkpts (routes.headD defGpx)).headD defPt = p0 := by
    rw [hg0, hp]
    rfl
  have hcb : computeBounds routes =
      (routes.flatMap trkpts).foldl boundsStep
        { n := p0.lat, e := p0.lon, s := p0.lat, w := p0.lon } := by
    unfold computeBounds
    rw [if_pos (And.intro (by rw [hr]; simp) (by rw [hg0, hp]; simp))]
    show routes.foldl (fun b g => (trkpts g).foldl boundsStep b)
        { n := ((trkpts (routes.headD defGpx)).headD defPt).lat
          e := ((trkpts (routes.headD defGpx)).headD defPt).lon
          s := ((trkpts (routes.headD defGpx)).headD defPt).lat
          w := ((trkpts (routes.headD defGpx)).headD defPt).lon } = _
    rw [hpt0, foldl_nested_flatMap]
  have hlatval : ∀ x ∈ (routes.flatMap trkpts).map Trkpt.lat, ∃ q, x = GoFloat.val q := by
    intro x hx
    rcases List.mem_map.mp hx with ⟨pt, hpt, hxe⟩
    obtain ⟨⟨a, ha⟩, _⟩ := hv pt hpt
    exact ⟨a, by rw [← hxe, ha]⟩
  have hlonval : ∀ x ∈ (routes.flatMap trkpts).map Trkpt.lon, ∃ q, x = GoFloat.val q := by
    intro x hx
    rcases List.mem_map.mp hx with ⟨pt, hpt, hxe⟩
    obtain ⟨_, ⟨b, hbv⟩⟩ := hv pt hpt
    exact ⟨b, by rw [← hxe, hbv]⟩
  obtain ⟨n, hnEq, hnGe, hnBd, hnMem⟩ := goFoldMax ((routes.flatMap trkpts).map Trkpt.lat) a0 hlatval
  obtain ⟨e, heEq, heGe, heBd, heMem⟩ := goFoldMax ((routes.flatMap trkpts).map Trkpt.lon) b0 hlonval
  obtain ⟨s, hsEq, hsLe, hsBd, hsMem⟩ := goFoldMin ((routes.flatMap trkpts).map Trkpt.lat) a0 hlatval
  obtain ⟨w, hwEq, hwLe, hwBd, hwMem⟩ := goFoldMin ((routes.flatMap trkpts).map Trkpt.lon) b0 hlonval
  have h1 : ((routes.flatMap trkpts).foldl boundsStep
      { n := p0.lat, e := p0.lon, s := p0.lat, w := p0.lon }).n = GoFloat.val n := by
    rw [bounds_foldl_n]
    show ((routes.flatMap trkpts).map Trkpt.lat).foldl _ p0.lat = _
    rw [ha0]
    exact hnEq
  have h2 : ((routes.flatMap trkpts).foldl boundsStep
      { n := p0.lat, e := p0.lon, s := p0.lat, w := p0.lon }).e = GoFloat.val e := by
    rw [bounds_foldl_e]
    show ((routes.flatMap trkpts).map Trkpt.lon).foldl _ p0.lon = _
    rw [hb0]
    exact heEq
  have h3 : ((routes.flatMap trkpts).foldl boundsStep
      { n := p0.lat, e := p0.lon, s := p0.lat, w := p0.lon }).s = GoFloat.val s := by
    rw [bounds_foldl_s]
    show ((routes.flatMap trkpts).map Trkpt.lat).foldl _ p0.lat = _
    rw [ha0]
    exact hsEq
  have h4 : ((routes.flatMap trkpts).foldl boundsStep
      { n := p0.lat, e := p0.lon, s := p0.lat, w := p0.lon }).w = GoFloat.val w := by
    rw [bounds_foldl_w]
    show ((routes.flatMap trkpts).map Trkpt.lon).foldl _ p0.lon = _
    rw [hb0]
    exact hwEq
  refine ⟨n, e, s, w, ?_, ?_, ?_, ?_, ?_, ?_⟩
  · rw [hcb]
    exact box_eq_of_fields _ _ h1 h2 h3 h4
  · intro pt hpt a b hla hlb
    refine ⟨?_, ?_, ?_, ?_⟩
    · exact hnBd a (List.mem_map.mpr ⟨pt, hpt, by rw [hla]⟩)
    · exact hsBd a (List.mem_map.mpr ⟨pt, hpt, by rw [hla]⟩)
    · exact heBd b (List.mem_map.mpr ⟨pt, hpt, by rw [hlb]⟩)
    · exact hwBd b (List.mem_map.mpr ⟨pt, hpt, by rw [hlb]⟩)
  · rcases hnMem with h | h
    · exact ⟨p0, hmem0, by rw [ha0, h]⟩
    · rcases List.mem_map.mp h with ⟨pt, hpt, hpe⟩
      exact ⟨pt, hpt, hpe⟩
  · rcases hsMem with h | h
    · exact ⟨p0, hmem0, by rw [ha0, h]⟩
    · rcases List.mem_map.mp h with ⟨pt, hpt, hpe⟩
      exact ⟨pt, hpt, hpe⟩
  · rcases heMem with h | h
    · exact ⟨p0, hmem0, by rw [hb0, h]⟩
    · rcases List.mem_map.mp h with ⟨pt, hpt, hpe⟩
      exact ⟨pt, hpt, hpe⟩
  · rcases hwMem with h | h
    · exact ⟨p0, hmem0, by rw [hb0, h]⟩
    · rcases List.mem_map.mp h with ⟨pt, hpt, hpe⟩
      exact ⟨pt, hpt, hpe⟩

/-- C5 counterexample: an archive whose first route has no points and
whose second route holds the single point (5, 5) loads successfully with
at least one point present, yet the box stays at the zero value — the
bounds fold is guarded by the first route being non-empty, so N is 0 and
not the maximum latitude 5.  This falsifies the claim's "otherwise
(whenever at least one point exists in any route)" branch. -/
theorem c5_counterexample :
    Load (Except.ok [entE, entP]) = LoadOutcome.ok dbCE5 ∧
    (dbPoints dbCE5).map Trkpt.lat = [GoFloat.val 5] ∧
    dbCE5.bounds.n = GoFloat.val 0 ∧
    GoFloat.val 0 ≠ GoFloat.val 5 :=
  ⟨by decide, by decide, by decide, by decide⟩

/-- C5 (amended): after a successful Load, if the database has no routes
or its FIRST route has no points, the box is the zero value (even when a
later route does contain points); otherwise the box is seeded from the
first point of the first route and folded over every point of every
route, so that — for finite (non-NaN) coordinates — N/E are values
attained by some stored point bounding all others from above and S/W are
attained values bounding all others from below. -/
theorem c5_bounds (z : Except String (List ZipEntry)) (db : Db)
    (hL : Load z = LoadOutcome.ok db) :
    ((db.routes = [] ∨ trkpts (db.routes.headD defGpx) = []) → db.bounds = zeroBox) ∧
    (db.routes ≠ [] → trkpts (db.routes.headD defGpx) ≠ [] →
      (∀ pt ∈ dbPoints db, (∃ a, pt.lat = GoFloat.val a) ∧ (∃ b, pt.lon = GoFloat.val b)) →
      ∃ n e s w : ℚ,
        db.bounds =
          { n := GoFloat.val n, e := GoFloat.val e, s := GoFloat.val s, w := GoFloat.val w } ∧
        (∀ pt ∈ dbPoints db, ∀ a b : ℚ,
          pt.lat = GoFloat.val a → pt.lon = GoFloat.val b →
          a ≤ n ∧ s ≤ a ∧ b ≤ e ∧ w ≤ b) ∧
        (∃ pt ∈ dbPoints db, pt.lat = GoFloat.val n) ∧
        (∃ pt ∈ dbPoints db, pt.lat = GoFloat.val s) ∧
        (∃ pt ∈ dbPoints db, pt.lon = GoFloat.val e) ∧
        (∃ pt ∈ dbPoints db, pt.lon = GoFloat.val w)) := by
  have hb := load_ok_state z db hL
  constructor
  · intro hemp
    rw [hb]
    unfold computeBounds
    rw [if_neg]
    rintro ⟨h1, h2⟩
    rcases hemp with h | h
    · rw [h] at h1
      simp at h1
    · rw [h] at h2
      simp at h2
  · intro hne hpts hv
    rw [hb]
    exact computeBounds_spec db.routes hne hpts hv

theorem c5_witness :
    Load (Except.ok [entW5]) = LoadOutcome.ok dbW5 ∧
    dbW5.routes ≠ [] ∧ trkpts (dbW5.routes.headD defGpx) ≠ [] ∧
    (∀ pt ∈ dbPoints dbW5, (∃ a, pt.lat = GoFloat.val a) ∧ (∃ b, pt.lon = GoFloat.val b)) ∧
    (∃ n e s w : ℚ,
      dbW5.bounds =
        { n := GoFloat.val n, e := GoFloat.val e, s := GoFloat.val s, w := GoFloat.val w } ∧
      (∀ pt ∈ dbPoints dbW5, ∀ a b : ℚ,
        pt.lat = GoFloat.val a → pt.lon = GoFloat.val b →
        a ≤ n ∧ s ≤ a ∧ b ≤ e ∧ w ≤ b) ∧
      (∃ pt ∈ dbPoints dbW5, pt.lat = GoFloat.val n) ∧
      (∃ pt ∈ dbPoints dbW5, pt.lat = GoFloat.val s) ∧
      (∃ pt ∈ dbPoints dbW5, pt.lon = GoFloat.val e) ∧
      (∃ pt ∈ dbPoints dbW5, pt.lon = GoFloat.val w)) := by
  have hv : ∀ pt ∈ dbPoints dbW5,
      (∃ a, pt.lat = GoFloat.val a) ∧ (∃ b, pt.lon = GoFloat.val b) := by
    intro pt hpt
    have hlist : dbPoints dbW5 = [ptV 1 2, ptV 3 0] := by decide
    rw [hlist] at hpt
    rcases List.mem_cons.mp hpt with h | h
    · subst h
      exact ⟨⟨1, rfl⟩, ⟨2, rfl⟩⟩
    · have hp := List.mem_singleton.mp h
      subst hp
      exact ⟨⟨3, rfl⟩, ⟨0, rfl⟩⟩
  exact ⟨by decide, by decide, by decide, hv,
    (c5_bounds (Except.ok [entW5]) dbW5 (by decide)).2 (by decide) (by decide) hv⟩

/- The Nearest scan: the final state holds the first point attaining the
   minimal distance. -/

lemma nearest_fold_keep (dist : GoFloat × GoFloat → GoFloat × GoFloat → GoFloat)
    (p1 : GoFloat × GoFloat) (fq : Trkpt → ℚ) :
    ∀ (l : List Trkpt) (m : ℚ) (s0 : Option Stop) (e0 : Option String),
      (∀ pt ∈ l, dist p1 (pt.lat, pt.lon) = GoFloat.val (fq pt)) →
      (∀ pt ∈ l, ¬ fq pt < m) →
      l.foldl (nearestStep dist p1) { minD := GoFloat.val m, stop := s0, err := e0 }
        = { minD := GoFloat.val m, stop := s0, err := e0 } := by
  intro l
  induction l with
  | nil => intro m s0 e0 _ _; rfl
  | cons a t ih =>
    intro m s0 e0 hq hall
    rw [List.foldl_cons]
    have hda := hq a (List.mem_cons_self _ _)
    have hstep : nearestStep dist p1 { minD := GoFloat.val m, stop := s0, err := e0 } a
        = { minD := GoFloat.val m, stop := s0, err := e0 } := by
      simp [nearestStep, hda, flt, hall a (List.mem_cons_self _ _)]
    rw [hstep]
    exact ih m s0 e0 (fun pt h => hq pt (List.mem_cons_of_mem _ h))
      (fun pt h => hall pt (List.mem_cons_of_mem _ h))

lemma nearest_fold_min (dist : GoFloat × GoFloat → GoFloat × GoFloat → GoFloat)
    (p1 : GoFloat × GoFloat) (fq : Trkpt → ℚ) :
    ∀ (l : List Trkpt) (m : ℚ) (s0 : Option Stop) (e0 : Option String),
      (∀ pt ∈ l, dist p1 (pt.lat, pt.lon) = GoFloat.val (fq pt)) →
      (∃ pt ∈ l, fq pt < m) →
      ∃ (i : ℕ) (hi : i < l.length),
        l.foldl (nearestStep dist p1) { minD := GoFloat.val m, stop := s0, err := e0 }
          = { minD := GoFloat.val (fq l[i])
              stop := some { lat := (l[i]).lat, lon := (l[i]).lon }, err := none } ∧
        fq l[i] < m ∧
        (∀ (j : ℕ) (hj : j < l.length), fq l[i] ≤ fq l[j]) ∧
        (∀ (j : ℕ) (hj : j < l.length), j < i → fq l[i] < fq l[j]) := by
  intro l
  induction l with
  | nil =>
    intro m s0 e0 _ hex
    rcases hex with ⟨pt, hpt, _⟩
    exact absurd hpt (List.not_mem_nil pt)
  | cons a t ih =>
    intro m s0 e0 hq hex
    have hda := hq a (List.mem_cons_self _ _)
    rw [List.foldl_cons]
    by_cases ham : fq a < m
    · have hstep : nearestStep dist p1 { minD := GoFloat.val m, stop := s0, err := e0 } a
          = { minD := GoFloat.val (fq a)
              stop := some { lat := a.lat, lon := a.lon }, err := none } := by
        simp [nearestStep, hda, flt, ham]
      rw [hstep]
      by_cases hex2 : ∃ pt ∈ t, fq pt < fq a
      · obtain ⟨i, hi, hEq, hLt, hMin, hFirst⟩ :=
          ih (fq a) (some { lat := a.lat, lon := a.lon }) none
            (fun pt h => hq pt (List.mem_cons_of_mem _ h)) hex2
        refine ⟨i + 1, by simpa using Nat.succ_lt_succ hi, ?_, lt_trans hLt ham, ?_, ?_⟩
        · rw [hEq]
          simp [List.getElem_cons_succ]
        · intro j hj
          cases j with
          | zero =>
            rw [List.getElem_cons_succ, List.getElem_cons_zero]
            exact le_of_lt hLt
          | succ j' =>
            rw [List.getElem_cons_succ, List.getElem_cons_succ]
            exact hMin j' (Nat.lt_of_succ_lt_succ hj)
        · intro j hj hji
          cases j with
          | zero =>
            rw [List.getElem_cons_succ, List.getElem_cons_zero]
            exact hLt
          | succ j' =>
            rw [List.getElem_cons_succ, List.getElem_cons_succ]
            exact hFirst j' (Nat.lt_of_succ_lt_succ hj) (Nat.lt_of_succ_lt_succ hji)
      · push_neg at hex2
        have hkeep := nearest_fold_keep dist p1 fq t (fq a)
          (some { lat := a.lat, lon := a.lon }) none
          (fun pt h => hq pt (List.mem_cons_of_mem _ h))
          (fun pt h => not_lt.mpr (hex2 pt h))
        refine ⟨0, Nat.succ_pos _, ?_, ham, ?_, ?_⟩
        · rw [hkeep]
          simp [List.getElem_cons_zero]
        · intro j hj
          cases j with
          | zero => exact le_refl _
          | succ j' =>
            have hj' : j' < t.length := Nat.lt_of_succ_lt_succ hj
            rw [List.getElem_cons_zero, List.getElem_cons_succ]
            exact hex2 t[j'] (List.getElem_mem hj')
        · intro j hj hj0
          exact absurd hj0 (Nat.not_lt_zero j)
    · have hstep : nearestStep dist p1 { minD := GoFloat.val m, stop := s0, err := e0 } a
          = { minD := GoFloat.val m, stop := s0, err := e0 } := by
        simp [nearestStep, hda, flt, ham]
      rw [hstep]
      have hex' : ∃ pt ∈ t, fq pt < m := by
        rcases hex with ⟨pt, hpt, hlt⟩
        rcases List.mem_cons.mp hpt with h | h
        · subst h
          exact absurd hlt ham
        · exact ⟨pt, h, hlt⟩
      obtain ⟨i, hi, hEq, hLt, hMin, hFirst⟩ :=
        ih m s0 e0 (fun pt h => hq pt (List.mem_cons_of_mem _ h)) hex'
      have ham' : m ≤ fq a := not_lt.mp ham
      refine ⟨i + 1, by simpa using Nat.succ_lt_succ hi, ?_, hLt, ?_, ?_⟩
      · rw [hEq]
        simp [List.getElem_cons_succ]
      · intro j hj
        cases j with
        | zero =>
          rw [List.getElem_cons_succ, List.getElem_cons_zero]
          exact le_of_lt (lt_of_lt_of_le hLt ham')
        | succ j' =>
          rw [List.getElem_cons_succ, List.getElem_cons_succ]
          exact hMin j' (Nat.lt_of_succ_lt_succ hj)
      · intro j hj hji
        cases j with
        | zero =>
          rw [List.getElem_cons_succ, List.getElem_cons_zero]
          exact lt_of_lt_of_le hLt ham'
        | succ j' =>
          rw [List.getElem_cons_succ, List.getElem_cons_succ]
          exact hFirst j' (Nat.lt_of_succ_lt_succ hj) (Nat.lt_of_succ_lt_succ hji)

/-- C6: given that the external great-circle distance is real-valued and
below the 1e10 sentinel on the scanned points (true of the haversine on
non-NaN coordinates, whose value never exceeds half the Earth's
circumference), Nearest on a database with at least one point returns a
Stop carrying the exact stored coordinates of the point minimizing the
distance, scanning route order then point order, replacing the running
minimum only on strictly smaller distance, so that under equal distances
the earlier-encountered point wins; the outstanding error is cleared. -/
theorem c6_nearest (dist : GoFloat × GoFloat → GoFloat × GoFloat → GoFloat)
    (db : Db) (lat lon : GoFloat) (fq : Trkpt → ℚ)
    (hq : ∀ pt ∈ dbPoints db, dist (lat, lon) (pt.lat, pt.lon) = GoFloat.val (fq pt))
    (hb : ∀ pt ∈ dbPoints db, fq pt < 10000000000)
    (hne : dbPoints db ≠ []) :
    ∃ (i : ℕ) (hi : i < (dbPoints db).length),
      Nearest dist db lat lon =
        (some { lat := ((dbPoints db)[i]).lat, lon := ((dbPoints db)[i]).lon }, none) ∧
      (∀ (j : ℕ) (hj : j < (dbPoints db).length),
        fq (dbPoints db)[i] ≤ fq (dbPoints db)[j]) ∧
      (∀ (j : ℕ) (hj : j < (dbPoints db).length), j < i →
        fq (dbPoints db)[i] < fq (dbPoints db)[j]) := by
  obtain ⟨p0, ps, hp⟩ := List.exists_cons_of_ne_nil hne
  have hmem0 : p0 ∈ dbPoints db := by rw [hp]; exact List.mem_cons_self _ _
  have hex : ∃ pt ∈ dbPoints db, fq pt < 10000000000 := ⟨p0, hmem0, hb p0 hmem0⟩
  obtain ⟨i, hi, hEq, hLt, hMin, hFirst⟩ :=
    nearest_fold_min dist (lat, lon) fq (dbPoints db) 10000000000 none (some noStopMsg) hq hex
  refine ⟨i, hi, ?_, hMin, hFirst⟩
  simp only [Nearest]
  rw [foldl_nested_flatMap]
  show (((dbPoints db).foldl (nearestStep dist (lat, lon))
      { minD := GoFloat.val 10000000000, stop := none, err := some noStopMsg }).stop,
    ((dbPoints db).foldl (nearestStep dist (lat, lon))
      { minD := GoFloat.val 10000000000, stop := none, err := some noStopMsg }).err) = _
  rw [hEq]

theorem c6_witness :
    (∀ pt ∈ dbPoints dbW6,
      distW (GoFloat.val 0, GoFloat.val 0) (pt.lat, pt.lon) = GoFloat.val (fqW pt)) ∧
    (∀ pt ∈ dbPoints dbW6, fqW pt < 10000000000) ∧
    dbPoints dbW6 ≠ [] ∧
    (∃ (i : ℕ) (hi : i < (dbPoints dbW6).length),
      Nearest distW dbW6 (GoFloat.val 0) (GoFloat.val 0) =
        (some { lat := ((dbPoints dbW6)[i]).lat, lon := ((dbPoints dbW6)[i]).lon }, none) ∧
      (∀ (j : ℕ) (hj : j < (dbPoints dbW6).length),
        fqW (dbPoints dbW6)[i] ≤ fqW (dbPoints dbW6)[j]) ∧
      (∀ (j : ℕ) (hj : j < (dbPoints dbW6).length), j < i →
        fqW (dbPoints dbW6)[i] < fqW (dbPoints dbW6)[j])) :=
  ⟨by decide, by decide, by decide,
   c6_nearest distW dbW6 (GoFloat.val 0) (GoFloat.val 0) fqW (by decide) (by decide) (by decide)⟩
